import Mathlib

/-
  Verification development for the Telnet terminal multiplexer core
  (sim_tmxr.cpp) and console adapter (sim_console.cpp).

  The data model and operations below are shallow embeddings of the C
  functions, translated statement by statement.  Machine int32 values that
  are non-negative in every reachable state (buffer indices, sizes, byte
  values) are modelled as Nat; tx byte counters, which the code can drive
  negative via the greeting-statistics adjustment, are modelled as Int.
  Socket reads and writes are external effects: the bytes read, and the
  number of bytes a non-blocking write accepts, enter as parameters
  (an "oracle") of the functions that perform them.
-/

/- Telnet protocol constants (signed char values, from sim_tmxr.cpp). -/

def TN_IAC : Int := -1
def TN_DONT : Int := -2
def TN_DO : Int := -3
def TN_WONT : Int := -4
def TN_WILL : Int := -5
def TN_SB : Int := -6
def TN_GA : Int := -7
def TN_EL : Int := -8
def TN_EC : Int := -9
def TN_AYT : Int := -10
def TN_AO : Int := -11
def TN_IP : Int := -12
def TN_BRK : Int := -13
def TN_DATAMK : Int := -14
def TN_NOP : Int := -15
def TN_SE : Int := -16

def TN_BIN : Int := 0
def TN_ECHO : Int := 1
def TN_SGA : Int := 3
def TN_LINE : Int := 34
def TN_CR : Int := 13
def TN_LF : Int := 10
def TN_NUL : Int := 0

/- Telnet line states (from sim_tmxr.cpp). -/

def TNS_NORM : Nat := 0
def TNS_IAC : Nat := 1
def TNS_WILL : Nat := 2
def TNS_WONT : Nat := 3
def TNS_SKIP : Nat := 4
def TNS_CRPAD : Nat := 5
def TNS_DO : Nat := 6
def TNS_DONT : Nat := 7

/-- Modelled from the spec: sim_tmxr.h is not part of the sources, so the
value of the transmit-ring guard is taken from the spec's description of
GUARD as "a fixed small constant, e.g. 8".  No theorem below depends on the
numeric value. -/
def TMXR_GUARD : Nat := 8

/-- Modelled from the spec: sim_tmxr.h is not part of the sources; the
valid-character flag returned by get_char is modelled as the bit just above
the 8 data bits. -/
def TMXR_VALID : Nat := 256

/-- Modelled from the spec: sim_defs.h is not part of the sources; the
BREAK flag combined with the byte in the return value of get_char is
modelled as a distinct higher bit. -/
def SCPE_BREAK : Nat := 8192

/-- Status results of the put_char / putchar family (t_stat values used by
the functions modelled here). -/
inductive TStat where
  | ok
  | lost
  | stall
  deriving DecidableEq

/-- Bytes of a message string, as sent over a socket. -/
def strBytes (s : String) : List Nat := s.data.map (fun ch => ch.toNat)

def tmxrBusyMsg : List Nat := strBytes ("All connections busy\r\n")

/-- One terminal line descriptor (TMLN).  The rx buffer and its parallel
break-flag array rbr are modelled as one list of (byte, break) pairs whose
length is the rx put index rxbpi; rxbpr is the read cursor into it.  The tx
ring keeps the C representation: a fixed array txb of size txbsz with put
index txbpi and remove index txbpr. -/
structure TMLN where
  conn : Nat          -- socket handle; 0 = no connection
  ipad : Nat          -- peer IPv4 address
  cnms : Nat          -- connect time, ms
  tsta : Nat          -- Telnet parse state
  rcve : Bool         -- receive enabled
  xmte : Bool         -- transmit enabled
  dstb : Bool         -- disable Telnet binary (set by WONT BIN)
  rxbpr : Nat         -- rx remove pointer
  rxb : List (Nat × Bool)  -- rx bytes with break flags; length = rxbpi
  rxcnt : Nat         -- rx byte count
  txbpi : Nat         -- tx put pointer
  txbpr : Nat         -- tx remove pointer
  txcnt : Int         -- tx byte count
  txdrp : Nat         -- tx dropped count
  txbfd : Bool        -- tx buffered-mode flag
  txbsz : Nat         -- tx ring size
  txb : List Nat      -- tx ring contents, length txbsz
  txlog : Bool        -- a transcript log is attached
  deriving DecidableEq

instance : Inhabited TMLN :=
  ⟨{ conn := 0, ipad := 0, cnms := 0, tsta := 0, rcve := false, xmte := true,
     dstb := false, rxbpr := 0, rxb := [], rxcnt := 0, txbpi := 0, txbpr := 0,
     txcnt := 0, txdrp := 0, txbfd := false, txbsz := 0, txb := [], txlog := false }⟩

/-- tmxr_tqln: count of buffered tx characters,
txbpi - txbpr + (txbpi < txbpr ? txbsz : 0). -/
def tmxr_tqln (lp : TMLN) : Nat :=
  if lp.txbpi < lp.txbpr then lp.txbpi + lp.txbsz - lp.txbpr else lp.txbpi - lp.txbpr

/-- TXBUF_AVAIL macro: txbsz - tmxr_tqln. -/
def TXBUF_AVAIL (lp : TMLN) : Nat := lp.txbsz - tmxr_tqln lp

/-- TXBUF_CHAR macro: store (char)c at txbpi, advance txbpi mod txbsz; if
the put pointer catches the remove pointer, evict the oldest byte (advance
txbpr) and count a drop. -/
def TXBUF_CHAR (lp : TMLN) (c : Nat) : TMLN :=
  let txb := lp.txb.set lp.txbpi (c % 256)
  let txbpi := (lp.txbpi + 1) % lp.txbsz
  if txbpi = lp.txbpr then
    { lp with txb := txb, txbpi := txbpi,
              txbpr := (1 + lp.txbpr) % lp.txbsz, txdrp := lp.txdrp + 1 }
  else
    { lp with txb := txb, txbpi := txbpi }

/-- tmxr_putc_ln: store one character in the line's tx ring.  The optional
fputc to the transcript log is an external effect with no modelled state. -/
def tmxr_putc_ln (lp : TMLN) (chr : Nat) : TMLN × TStat :=
  if lp.conn = 0 ∧ lp.txbfd = false then
    if lp.txlog then (lp, TStat.ok)
    else ({ lp with txdrp := lp.txdrp + 1 }, TStat.lost)
  else if lp.txbfd = true ∨ TXBUF_AVAIL lp > 1 then
    let lp1 := if chr % 256 = 255 then TXBUF_CHAR lp 255 else lp
    let lp2 := TXBUF_CHAR lp1 chr
    let lp3 :=
      if lp2.txbfd = false ∧ TXBUF_AVAIL lp2 ≤ TMXR_GUARD then
        { lp2 with xmte := false }
      else lp2
    (lp3, TStat.ok)
  else
    ({ lp with txdrp := lp.txdrp + 1, xmte := false }, TStat.stall)

/-- tmxr_linemsg: put each character of a message on the line, ignoring the
per-character status. -/
def tmxr_linemsg (lp : TMLN) (msg : List Nat) : TMLN :=
  msg.foldl (fun l c => (tmxr_putc_ln l c).1) lp

/-- tmxr_send_buffered_data: drain the tx ring to the socket with up to two
non-blocking writes (pre-wrap segment, then wrapped remainder).  o1 and o2
give the byte counts the socket accepted for the two writes; none models
SOCKET_ERROR.  Returns the updated line and the number of bytes still
buffered. -/
def tmxr_send_buffered_data (o1 o2 : Option Nat) (lp : TMLN) : TMLN × Nat :=
  let nbytes := tmxr_tqln lp
  if nbytes ≠ 0 then
    let step1 : TMLN × Nat :=
      match o1 with
      | none => (lp, nbytes)
      | some sbytes =>
        let txbpr := if lp.txbpr + sbytes ≥ lp.txbsz then 0 else lp.txbpr + sbytes
        ({ lp with txbpr := txbpr, txcnt := lp.txcnt + sbytes }, nbytes - sbytes)
    let lp1 := step1.1
    let nbytes1 := step1.2
    if nbytes1 ≠ 0 ∧ lp1.txbpr = 0 then
      match o2 with
      | none => (lp1, nbytes1)
      | some sbytes =>
        let txbpr := if lp1.txbpr + sbytes ≥ lp1.txbsz then 0 else lp1.txbpr + sbytes
        ({ lp1 with txbpr := txbpr, txcnt := lp1.txcnt + sbytes }, nbytes1 - sbytes)
    else (lp1, nbytes1)
  else (lp, nbytes)

/-- tmxr_reset_ln: flush the log (external), send remaining buffered data,
close the socket, and clear the line state.  The rx pointers rxbpi, rxbpr
are both zeroed (modelled by emptying rxb); the tx pointers are zeroed only
when the line is not in buffered mode. -/
def tmxr_reset_ln (o1 o2 : Option Nat) (lp : TMLN) : TMLN :=
  let lp1 := (tmxr_send_buffered_data o1 o2 lp).1
  { lp1 with conn := 0, tsta := 0, rxbpr := 0, rxb := [],
             txbpi := if lp1.txbfd then lp1.txbpi else 0,
             txbpr := if lp1.txbfd then lp1.txbpr else 0,
             xmte := true, dstb := false }

/-- tmxr_getc_ln: return the next filtered input character as
TMXR_VALID | byte, with SCPE_BREAK or'd in when the break flag is set;
0 when no character is available.  When the buffer empties, both rx
pointers rewind to zero. -/
def tmxr_getc_ln (lp : TMLN) : TMLN × Nat :=
  let res : TMLN × Nat :=
    if lp.conn ≠ 0 ∧ lp.rcve = true then
      let j := lp.rxb.length - lp.rxbpr
      if j ≠ 0 then
        let e := lp.rxb.getD lp.rxbpr (0, false)
        let val := TMXR_VALID ||| (e.1 % 256) ||| (if e.2 then SCPE_BREAK else 0)
        ({ lp with rxbpr := lp.rxbpr + 1 }, val)
      else (lp, 0)
    else (lp, 0)
  let lp1 := res.1
  if lp1.rxb.length = lp1.rxbpr then ({ lp1 with rxb := [], rxbpr := 0 }, res.2)
  else (lp1, res.2)

/-- Signed char reinterpretation of a stored byte, as used by the receive
filter ("signed char tmp = lp->rxb[j]"). -/
def sByte (b : Nat) : Int :=
  if b % 256 < 128 then ((b % 256 : Nat) : Int) else ((b % 256 : Nat) : Int) - 256

/-- State of the in-place Telnet receive filter of tmxr_poll_rx: the
binary-disable flag, the parse state, the rx buffer (bytes with break
flags; its length is rxbpi) and the scan position j. -/
structure RxState where
  dstb : Bool
  tsta : Nat
  buf : List (Nat × Bool)
  j : Nat
  deriving DecidableEq

/-- One iteration of the filter loop body of tmxr_poll_rx (the switch on
lp->tsta).  Removing a character (tmxr_rmvrc) shifts the remainder left and
shrinks the buffer, i.e. erases index j. -/
def tmxr_rx_step (s : RxState) : RxState :=
  let e := s.buf.getD s.j (0, false)
  let tmp : Int := sByte e.1
  if s.tsta = TNS_NORM then
    if tmp = TN_IAC then
      { s with tsta := TNS_IAC, buf := s.buf.eraseIdx s.j }
    else if tmp = TN_CR ∧ s.dstb = true then
      { s with tsta := TNS_CRPAD, j := s.j + 1 }
    else
      { s with j := s.j + 1 }
  else if s.tsta = TNS_IAC then
    if tmp = TN_IAC then
      { s with tsta := TNS_NORM, j := s.j + 1 }
    else if tmp = TN_BRK then
      { s with tsta := TNS_NORM, buf := s.buf.set s.j (0, true), j := s.j + 1 }
    else
      let tsta1 :=
        if tmp = TN_WILL then TNS_WILL
        else if tmp = TN_WONT then TNS_WONT
        else if tmp = TN_DO then TNS_DO
        else if tmp = TN_DONT then TNS_DONT
        else if tmp = TN_GA ∨ tmp = TN_EL ∨ tmp = TN_EC ∨ tmp = TN_AYT ∨
                tmp = TN_AO ∨ tmp = TN_IP ∨ tmp = TN_NOP then TNS_NORM
        else if tmp = TN_SB ∨ tmp = TN_DATAMK ∨ tmp = TN_SE then TNS_NORM
        else s.tsta
      { s with tsta := tsta1, buf := s.buf.eraseIdx s.j }
  else if s.tsta = TNS_WILL ∨ s.tsta = TNS_WONT then
    let dstb1 :=
      if tmp = TN_BIN then (if s.tsta = TNS_WILL then false else true)
      else s.dstb
    { s with dstb := dstb1, tsta := TNS_NORM, buf := s.buf.eraseIdx s.j }
  else if s.tsta = TNS_CRPAD then
    if tmp = TN_LF ∨ tmp = TN_NUL then
      { s with tsta := TNS_NORM, buf := s.buf.eraseIdx s.j }
    else
      { s with tsta := TNS_NORM }
  else
    { s with tsta := TNS_NORM, buf := s.buf.eraseIdx s.j }

/-- Loop variant of the filter: every step either consumes or erases a
byte, except the CRPAD fall-through which re-examines the byte in NORM. -/
def rxMeasure (s : RxState) : Nat :=
  2 * (s.buf.length - s.j) + (if s.tsta = TNS_CRPAD then 1 else 0)

/-- The filter loop of tmxr_poll_rx, with the iteration count made an
explicit argument so that the recursion is structural: each pass either
erases a byte, advances j, or (in the CRPAD fall-through) re-examines the
byte in NORM, so rxMeasure bounds the number of passes; the theorem
tmxr_rx_filter_eq below proves that with that fuel this function satisfies
exactly the loop equation of the C code. -/
def tmxr_rx_filter_go : Nat → RxState → RxState
  | 0, s => s
  | fuel + 1, s =>
    if s.j < s.buf.length then tmxr_rx_filter_go fuel (tmxr_rx_step s) else s

/-- The filter loop of tmxr_poll_rx: run the step until j reaches the end
of the buffer. -/
def tmxr_rx_filter (s : RxState) : RxState := tmxr_rx_filter_go (rxMeasure s) s

/-- One line's share of tmxr_poll_rx followed by the trailing
rewind-if-empty loop.  readRes is the outcome of the non-blocking socket
read that the code issues when the rx buffer is empty or a Telnet sequence
is pending: none models a closed socket (negative return, line reset), some
data the received bytes (possibly none).  o1 and o2 are passed to the
socket writes of the reset path. -/
def tmxr_poll_rx_line (o1 o2 : Option Nat) (lp : TMLN) (readRes : Option (List Nat)) : TMLN :=
  let lp1 :=
    if lp.conn = 0 ∨ lp.rcve = false then lp
    else if lp.rxb.length = 0 ∨ lp.tsta ≠ 0 then
      match readRes with
      | none => tmxr_reset_ln o1 o2 lp
      | some data =>
        if data.length = 0 then lp
        else
          let newBuf := lp.rxb ++ data.map (fun b => (b % 256, false))
          let st := tmxr_rx_filter ⟨lp.dstb, lp.tsta, newBuf, lp.rxb.length⟩
          { lp with rxb := st.buf, tsta := st.tsta, dstb := st.dstb,
                    rxcnt := lp.rxcnt + data.length }
    else lp
  if lp1.rxb.length = lp1.rxbpr then { lp1 with rxb := [], rxbpr := 0 } else lp1

/-- tmxr_poll_tx over a list of lines, with an oracle giving the two write
results for each line index. -/
def tmxr_poll_tx_go (o : Nat → Option Nat × Option Nat) : Nat → List TMLN → List TMLN
  | _, [] => []
  | i, lp :: rest =>
    (if lp.conn = 0 then lp
     else
       let r := tmxr_send_buffered_data (o i).1 (o i).2 lp
       if r.2 = 0 then { r.1 with xmte := true } else r.1) ::
    tmxr_poll_tx_go o (i + 1) rest

/-- Terminal multiplexer descriptor (TMXR).  The line count mp->lines is
ldsc.length; lnorder = none models a null connection-order pointer. -/
structure TMXR where
  ldsc : List TMLN
  lnorder : Option (List Int)
  buffered : Nat
  master : Nat
  deriving DecidableEq

/-- tmxr_poll_tx: drain every connected line's tx ring; a line whose ring
empties has its transmit enable set. -/
def tmxr_poll_tx (o : Nat → Option Nat × Option Nat) (mp : TMXR) : TMXR :=
  { mp with ldsc := tmxr_poll_tx_go o 0 mp.ldsc }

/-- The line-search loop of tmxr_poll_conn:
for (j = 0; j < lines; j++, i++) with i reassigned each iteration either
from the next valid connection-order entry or from j, breaking at the
first line whose conn is 0; returns the final value of i.  The loop runs
at most numLines iterations, which is the structural rem argument (rem =
numLines - j throughout, so the C loop condition j < numLines is exactly
rem > 0).  Note that when the loop runs to completion the trailing i++ of
the loop header has executed, so the returned i is one past the last line
examined. -/
def tmxr_conn_scan (numLines : Nat) (connAt : Nat → Nat) :
    Nat → Option (List Int) → Nat → Int → Int
  | 0, _, _, i => i
  | rem + 1, op, j, _i =>
    let pick : Int × Option (List Int) :=
      match op with
      | none => ((j : Int), none)
      | some [] => ((j : Int), some [])
      | some (o :: rest) =>
        if 0 ≤ o ∧ o < (numLines : Int) then (o, some rest)
        else ((j : Int), some (o :: rest))
    if connAt pick.1.toNat = 0 then pick.1
    else tmxr_conn_scan numLines connAt rem pick.2 (j + 1) (pick.1 + 1)

/-- Result of tmxr_poll_conn: the int32 return value, the bytes written
directly to the newly accepted socket (busy message or Telnet mantra), and
whether that socket was closed again. -/
structure PollConnRes where
  ret : Int
  sockOut : List Nat
  sockClosed : Bool
  deriving DecidableEq

/-- The initial Telnet option mantra (VM_VAX variant of sim_tmxr.cpp,
as byte values on the wire). -/
def tmxrMantra : List Nat :=
  [255, 254, 34, 255, 251, 3, 255, 253, 3, 255, 251, 1, 255, 251, 0, 255, 253, 0]

/-- tmxr_poll_conn: poll for a new connection.  acceptRes is the outcome of
sim_accept_conn (none = no pending connection, some (newsock, ipaddr)
otherwise); msgbuf is the formatted connection greeting (built by sprintf
from sim_name and the device name); tNow is sim_os_msec; o is the write
oracle of the tmxr_poll_tx call that flushes the greeting. -/
def tmxr_poll_conn (mp : TMXR) (acceptRes : Option (Nat × Nat)) (msgbuf : List Nat)
    (tNow : Nat) (o : Nat → Option Nat × Option Nat) : TMXR × PollConnRes :=
  match acceptRes with
  | none => (mp, ⟨-1, [], false⟩)
  | some (newsock, ipaddr) =>
    let n := mp.ldsc.length
    let i := tmxr_conn_scan n (fun k => ((mp.ldsc.getD k default).conn)) n mp.lnorder 0 (n : Int)
    if i ≥ (n : Int) then
      (mp, ⟨-1, tmxrBusyMsg, true⟩)
    else
      let idx := i.toNat
      let lp := mp.ldsc.getD idx default
      let lp := { lp with conn := newsock, ipad := ipaddr, cnms := tNow }
      let msgLen := msgbuf.length
      let lp :=
        if mp.buffered = 0 then
          { lp with txbpi := 0, txbpr := lp.txbsz - msgLen,
                    rxcnt := 0, txcnt := 0, txdrp := 0 }
        else if lp.txcnt > (lp.txbsz : Int) then
          { lp with txbpr := (lp.txbpi + 1) % lp.txbsz }
        else
          { lp with txbpr := lp.txbsz - msgLen }
      let lp := { lp with tsta := 0, xmte := true, dstb := false }
      let psave := lp.txbpi
      let lp := { lp with txbpi := lp.txbpr }
      let lp := tmxr_linemsg lp msgbuf
      let lp := { lp with txbpi := psave }
      let mp1 := { mp with ldsc := mp.ldsc.set idx lp }
      let mp2 := tmxr_poll_tx o mp1
      let lp2 := mp2.ldsc.getD idx default
      let mp3 := { mp2 with ldsc := mp2.ldsc.set idx { lp2 with txcnt := lp2.txcnt - msgLen } }
      (mp3, ⟨i, tmxrMantra, false⟩)

/-- Console adapter state: the console multiplexer sim_con_tmxr (whose
single line descriptor models sim_con_ldsc) and whether a simulator log
sim_log is open. -/
structure ConsoleState where
  tmxr : TMXR
  simLog : Bool
  deriving DecidableEq

/-- sim_con_ldsc, the console line (line 0 of the console multiplexer). -/
def conLdsc (cs : ConsoleState) : TMLN := cs.tmxr.ldsc.getD 0 default

/-- Store an updated console line back into the console multiplexer. -/
def setConLdsc (cs : ConsoleState) (lp : TMLN) : ConsoleState :=
  { cs with tmxr := { cs.tmxr with ldsc := cs.tmxr.ldsc.set 0 lp } }

/-- sim_putchar: console output.  When no Telnet master is open the
character goes to the local window console (sim_os_putchar, an external
effect returning SCPE_OK).  With a master open, the status of the inner
tmxr_putc_ln is discarded and SCPE_OK is returned, except for the
unconnected-and-unbuffered case which returns SCPE_LOST.  acceptRes,
msgbuf, tNow, oc feed the tmxr_poll_conn attempted when unconnected but
buffered; ox feeds the final tmxr_poll_tx. -/
def sim_putchar (cs : ConsoleState) (c : Nat) (acceptRes : Option (Nat × Nat))
    (msgbuf : List Nat) (tNow : Nat) (oc ox : Nat → Option Nat × Option Nat) :
    ConsoleState × TStat :=
  if cs.tmxr.master = 0 then (cs, TStat.ok)
  else if (conLdsc cs).conn = 0 ∧ (conLdsc cs).txbfd = false then (cs, TStat.lost)
  else
    let cs1 :=
      if (conLdsc cs).conn = 0 then
        let pc := tmxr_poll_conn cs.tmxr acceptRes msgbuf tNow oc
        let cs2 := { cs with tmxr := pc.1 }
        if pc.2.ret ≥ 0 then setConLdsc cs2 { conLdsc cs2 with rcve := true } else cs2
      else cs
    let lp := (tmxr_putc_ln (conLdsc cs1) c).1
    let cs3 := setConLdsc cs1 lp
    ({ cs3 with tmxr := tmxr_poll_tx ox cs3.tmxr }, TStat.ok)

/-- sim_putchar_s: stall-checking console output.  Identical to sim_putchar
except that a transmit-disabled line yields SCPE_STALL without calling
tmxr_putc_ln, and otherwise the status of tmxr_putc_ln is returned. -/
def sim_putchar_s (cs : ConsoleState) (c : Nat) (acceptRes : Option (Nat × Nat))
    (msgbuf : List Nat) (tNow : Nat) (oc ox : Nat → Option Nat × Option Nat) :
    ConsoleState × TStat :=
  if cs.tmxr.master = 0 then (cs, TStat.ok)
  else if (conLdsc cs).conn = 0 ∧ (conLdsc cs).txbfd = false then (cs, TStat.lost)
  else
    let cs1 :=
      if (conLdsc cs).conn = 0 then
        let pc := tmxr_poll_conn cs.tmxr acceptRes msgbuf tNow oc
        let cs2 := { cs with tmxr := pc.1 }
        if pc.2.ret ≥ 0 then setConLdsc cs2 { conLdsc cs2 with rcve := true } else cs2
      else cs
    let pr :=
      if (conLdsc cs1).xmte = false then (conLdsc cs1, TStat.stall)
      else tmxr_putc_ln (conLdsc cs1) c
    let cs3 := setConLdsc cs1 pr.1
    ({ cs3 with tmxr := tmxr_poll_tx ox cs3.tmxr }, pr.2)

/-- Modelled from the spec: the output-conversion mode selector
{7B, 7P, UC, 8B} of sim_console.cpp; the numeric TTUF_MODE_* encodings live
in a header that is not part of the sources, so the selector is modelled as
an enumeration. -/
inductive TTMode where
  | mode7B
  | mode8B
  | modeUC
  | mode7P
  deriving DecidableEq

/-- sim_tt_outcvt: output character processing.  ksr models the TTUF_KSR
flag bit of the mode word and pchar the process-wide printable-character
mask sim_tt_pchar; -1 means the character is dropped.  islower and toupper
follow the C library on the 7-bit values produced by the mask. -/
def sim_tt_outcvt (c : Nat) (md : TTMode) (ksr : Bool) (pchar : Nat) : Int :=
  if md ≠ TTMode.mode8B then
    let c1 := c &&& 127
    let c2 := if md = TTMode.modeUC ∧ 97 ≤ c1 ∧ c1 ≤ 122 then c1 - 32 else c1
    if md = TTMode.modeUC ∧ ksr = true ∧ c2 ≥ 96 then -1
    else if (md = TTMode.modeUC ∨ md = TTMode.mode7P) ∧
            (c2 = 127 ∨ (c2 < 32 ∧ (pchar >>> c2) &&& 1 = 0)) then -1
    else (c2 : Int)
  else ((c &&& 255 : Nat) : Int)

/- Concrete line states used by the concrete theorems below. -/

/-- A freshly connected line at its post-accept defaults (tsta = NORM,
dstb = 0, empty rx buffer, empty unbuffered 8-byte tx ring). -/
def exFresh : TMLN :=
  { conn := 1, ipad := 0, cnms := 0, tsta := 0, rcve := true, xmte := true,
    dstb := false, rxbpr := 0, rxb := [], rxcnt := 0, txbpi := 0, txbpr := 0,
    txcnt := 0, txdrp := 0, txbfd := false, txbsz := 8,
    txb := [0, 0, 0, 0, 0, 0, 0, 0], txlog := false }

/-- A line occupied by an existing connection on socket s. -/
def exBusy (s : Nat) : TMLN := { exFresh with conn := s }

/-- A write oracle whose socket accepts nothing. -/
def exOracleZero : Nat → Option Nat × Option Nat := fun _ => (some 0, some 0)

/-- A connected line whose unbuffered 4-byte tx ring has three queued
bytes, so TXBUF_AVAIL is exactly 1. -/
def exAvail1 : TMLN :=
  { exFresh with txbsz := 4, txb := [0, 0, 0, 0], txbpi := 3, txbpr := 0 }

/-- A connected buffered line whose 3-byte tx ring is full
(tmxr_tqln = txbsz - 1). -/
def exBufFull : TMLN :=
  { exFresh with txbfd := true, txbsz := 3, txb := [10, 20, 30], txbpi := 2, txbpr := 0 }

/-- A connected line with two queued bytes in its 8-byte ring
(TXBUF_AVAIL = 6). -/
def exHalf : TMLN := { exFresh with txbpi := 2 }

/-- A line carrying nonzero statistics counters. -/
def exDropLine : TMLN := { exFresh with txdrp := 5, rxcnt := 3, txcnt := 9 }

/-- A connected line after the peer has negotiated WONT BIN (dstb set). -/
def exFreshWont : TMLN := { exFresh with dstb := true }

/-- A two-line multiplexer with a connection order list whose last entry is
not the highest line number, both lines occupied. -/
def muxC1 : TMXR :=
  { ldsc := [exBusy 7, exBusy 9], lnorder := some [1, 0], buffered := 0, master := 5 }

/-- A console adapter state with an open Telnet master and a connected
console line. -/
def exCon : ConsoleState :=
  { tmxr := { ldsc := [{ exFresh with conn := 3 }], lnorder := none,
              buffered := 0, master := 2 },
    simLog := false }

/- Helper lemmas shared by the claim theorems. -/

theorem mod_succ_ite (a n : Nat) (h : a < n) :
    (a + 1) % n = if a + 1 = n then 0 else a + 1 := by
  split_ifs with h1
  · rw [h1, Nat.mod_self]
  · exact Nat.mod_eq_of_lt (by omega)

/-- Field-level characterization of TXBUF_CHAR on a well-formed tx ring:
when the ring is not about to fill the write is plain, and when the write
fills it the oldest byte is evicted and a drop counted. -/
theorem txbuf_char_spec (lp : TMLN) (c : Nat)
    (hpi : lp.txbpi < lp.txbsz) (hpr : lp.txbpr < lp.txbsz) :
    (tmxr_tqln lp + 1 < lp.txbsz →
      TXBUF_CHAR lp c = { lp with txb := lp.txb.set lp.txbpi (c % 256),
                                  txbpi := (lp.txbpi + 1) % lp.txbsz } ∧
      tmxr_tqln (TXBUF_CHAR lp c) = tmxr_tqln lp + 1) ∧
    (tmxr_tqln lp + 1 = lp.txbsz →
      TXBUF_CHAR lp c = { lp with txb := lp.txb.set lp.txbpi (c % 256),
                                  txbpi := (lp.txbpi + 1) % lp.txbsz,
                                  txbpr := (1 + lp.txbpr) % lp.txbsz,
                                  txdrp := lp.txdrp + 1 } ∧
      tmxr_tqln (TXBUF_CHAR lp c) = lp.txbsz - 1) := by
  obtain ⟨conn, ipad, cnms, tsta, rcve, xmte, dstb, rxbpr, rxb, rxcnt,
    txbpi, txbpr, txcnt, txdrp, txbfd, txbsz, txb, txlog⟩ := lp
  simp only [tmxr_tqln, TXBUF_CHAR] at *
  rw [mod_succ_ite _ _ hpi]
  constructor
  · intro hroom
    have hne : (if txbpi + 1 = txbsz then 0 else txbpi + 1) ≠ txbpr := by
      split_ifs at hroom ⊢ <;> omega
    rw [if_neg hne]
    refine ⟨rfl, ?_⟩
    simp only
    split_ifs at hroom ⊢ <;> omega
  · intro hfull
    have heq : (if txbpi + 1 = txbsz then 0 else txbpi + 1) = txbpr := by
      split_ifs at hfull ⊢ <;> omega
    rw [if_pos heq]
    refine ⟨rfl, ?_⟩
    simp only
    rw [Nat.add_comm 1 txbpr, mod_succ_ite _ _ hpr]
    split_ifs at hfull ⊢ <;> omega


/-- A byte whose low 8 bits are below 128 reads back as itself through the
signed char reinterpretation. -/
theorem sByte_of_mod_eq (b v : Nat) (hv : v < 128) (h : b % 256 = v) :
    sByte b = (v : Int) := by
  unfold sByte
  rw [h, if_pos hv]

/-- C3 counterexample: in state NORM with the binary-disable flag FALSE
(the post-accept default), a received CR leaves the filter in NORM — it
does not enter CRPAD as the claim states; with the flag TRUE it does enter
CRPAD, the opposite of the claim's second half. -/
theorem c3_crpad_polarity_counterexample :
    (tmxr_rx_step ⟨false, TNS_NORM, [(13, false)], 0⟩).tsta = TNS_NORM ∧
    TNS_NORM ≠ TNS_CRPAD ∧
    (tmxr_rx_step ⟨true, TNS_NORM, [(13, false)], 0⟩).tsta = TNS_CRPAD := by
  decide

/-- C3 amended: in state NORM a CR byte is always kept and the scan
advances; the filter moves to CRPAD exactly when dstb is TRUE (binary mode
disabled by a prior WONT BIN) and stays in NORM when dstb is false, the
opposite polarity of the claim.  CR padding removal is armed exactly when
dstb == true. -/
theorem c3_crpad_armed_iff_dstb (dstb : Bool) (buf : List (Nat × Bool)) (j : Nat)
    (hb : (buf.getD j (0, false)).1 % 256 = 13) :
    tmxr_rx_step ⟨dstb, TNS_NORM, buf, j⟩ =
      { dstb := dstb, tsta := if dstb then TNS_CRPAD else TNS_NORM,
        buf := buf, j := j + 1 } := by
  have hs : sByte (buf.getD j (0, false)).1 = 13 :=
    sByte_of_mod_eq _ 13 (by norm_num) hb
  cases dstb <;>
    unfold tmxr_rx_step <;>
    dsimp only <;>
    rw [hs] <;>
    simp [TN_IAC, TN_CR, TNS_NORM, TNS_IAC, TNS_CRPAD]

/-- C3 witness: the amended theorem applied to a concrete CR byte with
dstb true. -/
theorem c3_crpad_armed_iff_dstb_witness :
    (([((13 : Nat), false)].getD 0 (0, false)).1 % 256 = 13) ∧
    tmxr_rx_step ⟨true, TNS_NORM, [(13, false)], 0⟩ =
      { dstb := true, tsta := if true then TNS_CRPAD else TNS_NORM,
        buf := [(13, false)], j := 1 } :=
  ⟨by decide, c3_crpad_armed_iff_dstb true [(13, false)] 0 (by decide)⟩

/-- C9 counterexample: in plain 7B mode sim_tt_outcvt returns 0x7F
unchanged — the character is not dropped, contradicting the claim that
0x7F is dropped in every non-8-bit mode. -/
theorem c9_7b_keeps_del_counterexample :
    sim_tt_outcvt 127 TTMode.mode7B false 0 = 127 ∧ (127 : Int) ≠ -1 := by
  decide

/-- C9 amended: in 7B mode sim_tt_outcvt returns the character masked to
7 bits unconditionally (0x7F included, which is therefore NOT dropped);
the masked value 0x7F is dropped only in the UC and 7P modes. -/
theorem c9_outcvt_7b_amended (c : Nat) (ksr : Bool) (pchar : Nat) :
    sim_tt_outcvt c TTMode.mode7B ksr pchar = ((c &&& 127 : Nat) : Int) ∧
    sim_tt_outcvt 127 TTMode.modeUC ksr pchar = -1 ∧
    sim_tt_outcvt 127 TTMode.mode7P ksr pchar = -1 := by
  refine ⟨?_, ?_, ?_⟩ <;> cases ksr <;> simp [sim_tt_outcvt]

/-- C10: with the console Telnet master open and a client connected,
sim_putchar discards the status of the underlying tmxr_putc_ln and always
returns SCPE_OK; only sim_putchar_s propagates the transmit status (a
transmit-disabled line yields SCPE_STALL, otherwise the tmxr_putc_ln
status is returned). -/
theorem c10_putchar_ignores_status (cs : ConsoleState) (c : Nat)
    (acceptRes : Option (Nat × Nat)) (msgbuf : List Nat) (tNow : Nat)
    (oc ox : Nat → Option Nat × Option Nat)
    (hm : cs.tmxr.master ≠ 0) (hc : (conLdsc cs).conn ≠ 0) :
    (sim_putchar cs c acceptRes msgbuf tNow oc ox).2 = TStat.ok ∧
    ((conLdsc cs).xmte = false →
      (sim_putchar_s cs c acceptRes msgbuf tNow oc ox).2 = TStat.stall) ∧
    ((conLdsc cs).xmte = true →
      (sim_putchar_s cs c acceptRes msgbuf tNow oc ox).2 =
        (tmxr_putc_ln (conLdsc cs) c).2) := by
  refine ⟨?_, ?_, ?_⟩
  · simp [sim_putchar, hm, hc]
  · intro hx
    simp [sim_putchar_s, hm, hc, hx]
  · intro hx
    simp [sim_putchar_s, hm, hc, hx]

/-- C10 witness: the theorem applied to a concrete connected console. -/
theorem c10_putchar_ignores_status_witness :
    exCon.tmxr.master ≠ 0 ∧ (conLdsc exCon).conn ≠ 0 ∧
    ((sim_putchar exCon 65 none [] 0 exOracleZero exOracleZero).2 = TStat.ok ∧
    ((conLdsc exCon).xmte = false →
      (sim_putchar_s exCon 65 none [] 0 exOracleZero exOracleZero).2 = TStat.stall) ∧
    ((conLdsc exCon).xmte = true →
      (sim_putchar_s exCon 65 none [] 0 exOracleZero exOracleZero).2 =
        (tmxr_putc_ln (conLdsc exCon) 65).2)) :=
  ⟨by decide, by decide,
   c10_putchar_ignores_status exCon 65 none [] 0 exOracleZero exOracleZero
     (by decide) (by decide)⟩

/-- C5: on a buffered line (txbfd set) tmxr_putc_ln always returns SCPE_OK
— never stall — and when the ring is full (tmxr_tqln = txbsz - 1) the
oldest buffered byte is evicted by advancing the take pointer one slot and
tx_drops is incremented once for the evicted byte. -/
theorem c5_buffered_never_stalls (lp : TMLN) (c : Nat)
    (hb : lp.txbfd = true) (hpi : lp.txbpi < lp.txbsz) (hpr : lp.txbpr < lp.txbsz) :
    (tmxr_putc_ln lp c).2 = TStat.ok ∧
    (tmxr_tqln lp = lp.txbsz - 1 → c % 256 ≠ 255 →
      (tmxr_putc_ln lp c).1.txbpr = (1 + lp.txbpr) % lp.txbsz ∧
      (tmxr_putc_ln lp c).1.txdrp = lp.txdrp + 1) := by
  constructor
  · simp [tmxr_putc_ln, hb]
  · intro hfull hc
    have h2 := (txbuf_char_spec lp c hpi hpr).2 (by omega)
    simp [tmxr_putc_ln, hb, hc, h2.1]

/-- C5 witness: a full buffered 3-byte ring accepting one more byte. -/
theorem c5_buffered_never_stalls_witness :
    exBufFull.txbfd = true ∧ exBufFull.txbpi < exBufFull.txbsz ∧
    exBufFull.txbpr < exBufFull.txbsz ∧
    ((tmxr_putc_ln exBufFull 65).2 = TStat.ok ∧
    (tmxr_tqln exBufFull = exBufFull.txbsz - 1 → (65 : Nat) % 256 ≠ 255 →
      (tmxr_putc_ln exBufFull 65).1.txbpr = (1 + exBufFull.txbpr) % exBufFull.txbsz ∧
      (tmxr_putc_ln exBufFull 65).1.txdrp = exBufFull.txdrp + 1)) :=
  ⟨by decide, by decide, by decide,
   c5_buffered_never_stalls exBufFull 65 (by decide) (by decide) (by decide)⟩

/-- C7: on a connected line with at least two free slots, tmxr_putc_ln of
the byte 0xFF appends exactly two 0xFF bytes to the tx ring (at the put
pointer and its successor, advancing the put pointer by two) and returns
SCPE_OK; every byte other than 0xFF is stored exactly once, so no other
input byte is doubled. -/
theorem c7_iac_doubling (lp : TMLN) (hc : lp.conn ≠ 0)
    (hpi : lp.txbpi < lp.txbsz) (hpr : lp.txbpr < lp.txbsz)
    (hav : 2 ≤ TXBUF_AVAIL lp) :
    ((tmxr_putc_ln lp 255).2 = TStat.ok ∧
     (tmxr_putc_ln lp 255).1.txb =
       (lp.txb.set lp.txbpi 255).set ((lp.txbpi + 1) % lp.txbsz) 255 ∧
     (tmxr_putc_ln lp 255).1.txbpi = (lp.txbpi + 2) % lp.txbsz) ∧
    (∀ c : Nat, c < 256 → c ≠ 255 →
      (tmxr_putc_ln lp c).2 = TStat.ok ∧
      (tmxr_putc_ln lp c).1.txb = lp.txb.set lp.txbpi c ∧
      (tmxr_putc_ln lp c).1.txbpi = (lp.txbpi + 1) % lp.txbsz) := by
  have hN : 0 < lp.txbsz := by omega
  have hq2 : tmxr_tqln lp + 2 ≤ lp.txbsz := by
    unfold TXBUF_AVAIL at hav
    omega
  have hgt : 1 < TXBUF_AVAIL lp := hav
  have hA := (txbuf_char_spec lp 255 hpi hpr).1 (by omega)
  constructor
  · have hpiA : (TXBUF_CHAR lp 255).txbpi < (TXBUF_CHAR lp 255).txbsz := by
      rw [hA.1]
      exact Nat.mod_lt _ hN
    have hprA : (TXBUF_CHAR lp 255).txbpr < (TXBUF_CHAR lp 255).txbsz := by
      rw [hA.1]
      exact hpr
    have hszA : (TXBUF_CHAR lp 255).txbsz = lp.txbsz := by rw [hA.1]
    have hB := txbuf_char_spec (TXBUF_CHAR lp 255) 255 hpiA hprA
    have hkey : (TXBUF_CHAR (TXBUF_CHAR lp 255) 255).txb =
        (lp.txb.set lp.txbpi 255).set ((lp.txbpi + 1) % lp.txbsz) 255 ∧
        (TXBUF_CHAR (TXBUF_CHAR lp 255) 255).txbpi = (lp.txbpi + 2) % lp.txbsz := by
      rcases Nat.lt_or_ge (tmxr_tqln (TXBUF_CHAR lp 255) + 1) (TXBUF_CHAR lp 255).txbsz
        with hcase | hcase
      · have hB1 := (hB.1 hcase).1
        rw [hB1, hA.1]
        refine ⟨by norm_num, ?_⟩
        simp only [Nat.mod_add_mod]
      · have hfull : tmxr_tqln (TXBUF_CHAR lp 255) + 1 = (TXBUF_CHAR lp 255).txbsz := by
          have := hA.2
          rw [hszA] at hcase
          omega
        have hB2 := (hB.2 hfull).1
        rw [hB2, hA.1]
        refine ⟨by norm_num, ?_⟩
        simp only [Nat.mod_add_mod]
    refine ⟨?_, ?_, ?_⟩ <;>
      simp only [tmxr_putc_ln, hc, hgt] <;>
      norm_num <;>
      split_ifs <;>
      simp [hkey.1, hkey.2]
  · intro c hlt hne
    have hcm : c % 256 = c := Nat.mod_eq_of_lt hlt
    have hA2 := (txbuf_char_spec lp c hpi hpr).1 (by omega)
    refine ⟨?_, ?_, ?_⟩ <;>
      simp only [tmxr_putc_ln, hc, hgt] <;>
      simp [hcm, hne, hA2.1] <;>
      split_ifs <;>
      simp [hA2.1, hcm]

/-- C7 witness: an 8-byte ring with two queued bytes takes the doubled IAC
at positions 2 and 3. -/
theorem c7_iac_doubling_witness :
    exHalf.conn ≠ 0 ∧ exHalf.txbpi < exHalf.txbsz ∧ exHalf.txbpr < exHalf.txbsz ∧
    2 ≤ TXBUF_AVAIL exHalf ∧
    (((tmxr_putc_ln exHalf 255).2 = TStat.ok ∧
     (tmxr_putc_ln exHalf 255).1.txb =
       (exHalf.txb.set exHalf.txbpi 255).set ((exHalf.txbpi + 1) % exHalf.txbsz) 255 ∧
     (tmxr_putc_ln exHalf 255).1.txbpi = (exHalf.txbpi + 2) % exHalf.txbsz) ∧
    (∀ c : Nat, c < 256 → c ≠ 255 →
      (tmxr_putc_ln exHalf c).2 = TStat.ok ∧
      (tmxr_putc_ln exHalf c).1.txb = exHalf.txb.set exHalf.txbpi c ∧
      (tmxr_putc_ln exHalf c).1.txbpi = (exHalf.txbpi + 1) % exHalf.txbsz)) :=
  ⟨by decide, by decide, by decide, by decide,
   c7_iac_doubling exHalf (by decide) (by decide) (by decide) (by decide)⟩

/-- On a well-formed ring the queued count is below the ring size. -/
theorem tqln_lt_txbsz (lp : TMLN) (hpi : lp.txbpi < lp.txbsz) (hpr : lp.txbpr < lp.txbsz) :
    tmxr_tqln lp < lp.txbsz := by
  unfold tmxr_tqln
  split_ifs <;> omega

/-- TXBUF_CHAR touches only the tx ring fields. -/
theorem txbuf_char_preserves (lp : TMLN) (c : Nat) :
    (TXBUF_CHAR lp c).xmte = lp.xmte ∧ (TXBUF_CHAR lp c).txbfd = lp.txbfd := by
  simp only [TXBUF_CHAR]
  split_ifs <;> simp

/-- C4 amended: for a connected unbuffered line, tmxr_putc_ln returns
SCPE_STALL (incrementing tx_drops, clearing tx_enable and leaving the ring
untouched) exactly when fewer than two free slots remain (TXBUF_AVAIL ≤ 1)
— the same threshold for every byte, so a non-IAC byte stalls even though
one slot is free; otherwise SCPE_OK is returned and the byte (preceded by
a second IAC when its low 8 bits are 0xFF) is stored, tx_enable is cleared
when at most GUARD free slots remain after writing, and in the boundary
case of an IAC with exactly two free slots the second stored IAC overruns
the take pointer, evicting the oldest byte and incrementing tx_drops
despite the SCPE_OK. -/
theorem c4_putc_unbuffered_amended (lp : TMLN) (c : Nat)
    (hc : lp.conn ≠ 0) (hb : lp.txbfd = false)
    (hpi : lp.txbpi < lp.txbsz) (hpr : lp.txbpr < lp.txbsz) :
    ((tmxr_putc_ln lp c).2 = TStat.stall ↔ TXBUF_AVAIL lp ≤ 1) ∧
    (TXBUF_AVAIL lp ≤ 1 →
      (tmxr_putc_ln lp c).1 = { lp with txdrp := lp.txdrp + 1, xmte := false }) ∧
    (2 ≤ TXBUF_AVAIL lp →
      (tmxr_putc_ln lp c).2 = TStat.ok ∧
      (c % 256 ≠ 255 →
        (tmxr_putc_ln lp c).1.txb = lp.txb.set lp.txbpi (c % 256) ∧
        (tmxr_putc_ln lp c).1.txbpi = (lp.txbpi + 1) % lp.txbsz ∧
        (tmxr_putc_ln lp c).1.txbpr = lp.txbpr ∧
        (tmxr_putc_ln lp c).1.txdrp = lp.txdrp) ∧
      (c % 256 = 255 → 3 ≤ TXBUF_AVAIL lp →
        (tmxr_putc_ln lp c).1.txbpi = (lp.txbpi + 2) % lp.txbsz ∧
        (tmxr_putc_ln lp c).1.txbpr = lp.txbpr ∧
        (tmxr_putc_ln lp c).1.txdrp = lp.txdrp) ∧
      (c % 256 = 255 → TXBUF_AVAIL lp = 2 →
        (tmxr_putc_ln lp c).1.txbpi = (lp.txbpi + 2) % lp.txbsz ∧
        (tmxr_putc_ln lp c).1.txbpr = (1 + lp.txbpr) % lp.txbsz ∧
        (tmxr_putc_ln lp c).1.txdrp = lp.txdrp + 1) ∧
      ((tmxr_putc_ln lp c).1.xmte = false ↔
        (TXBUF_AVAIL (tmxr_putc_ln lp c).1 ≤ TMXR_GUARD ∨ lp.xmte = false))) := by
  have hN : 0 < lp.txbsz := by omega
  have hq : tmxr_tqln lp < lp.txbsz := tqln_lt_txbsz lp hpi hpr
  refine ⟨?_, ?_, ?_⟩
  · by_cases hA : TXBUF_AVAIL lp ≤ 1
    · have hng : ¬(TXBUF_AVAIL lp > 1) := by omega
      simp [tmxr_putc_ln, hc, hb, hng, hA]
    · have hgt : TXBUF_AVAIL lp > 1 := by omega
      simp [tmxr_putc_ln, hc, hb, hgt, hA]
  · intro hA
    have hng : ¬(TXBUF_AVAIL lp > 1) := by omega
    simp [tmxr_putc_ln, hc, hb, hng]
  · intro hav
    have hgt : TXBUF_AVAIL lp > 1 := by omega
    have hq2 : tmxr_tqln lp + 2 ≤ lp.txbsz := by
      unfold TXBUF_AVAIL at hav
      omega
    have hA1 := (txbuf_char_spec lp 255 hpi hpr).1 (by omega)
    have hpiA : (TXBUF_CHAR lp 255).txbpi < (TXBUF_CHAR lp 255).txbsz := by
      rw [hA1.1]
      exact Nat.mod_lt _ hN
    have hprA : (TXBUF_CHAR lp 255).txbpr < (TXBUF_CHAR lp 255).txbsz := by
      rw [hA1.1]
      exact hpr
    have hszA : (TXBUF_CHAR lp 255).txbsz = lp.txbsz := by rw [hA1.1]
    refine ⟨?_, ?_, ?_, ?_, ?_⟩
    · simp [tmxr_putc_ln, hc, hb, hgt]
    · intro hne
      have hA2 := (txbuf_char_spec lp c hpi hpr).1 (by omega)
      refine ⟨?_, ?_, ?_, ?_⟩ <;>
        simp only [tmxr_putc_ln, hc, hb, hgt] <;>
        simp [hne] <;>
        split_ifs <;>
        simp [hA2.1]
    · intro h255 h3
      have hB := (txbuf_char_spec (TXBUF_CHAR lp 255) c hpiA hprA).1
        (by rw [hA1.2, hszA]; unfold TXBUF_AVAIL at h3; omega)
      refine ⟨?_, ?_, ?_⟩ <;>
        simp only [tmxr_putc_ln, hc, hb, hgt] <;>
        simp [h255] <;>
        split_ifs <;>
        rw [hB.1] <;>
        simp [hA1.1, Nat.mod_add_mod]
    · intro h255 h2
      have hfull : tmxr_tqln (TXBUF_CHAR lp 255) + 1 = (TXBUF_CHAR lp 255).txbsz := by
        rw [hA1.2, hszA]
        unfold TXBUF_AVAIL at h2
        omega
      have hB := (txbuf_char_spec (TXBUF_CHAR lp 255) c hpiA hprA).2 hfull
      refine ⟨?_, ?_, ?_⟩ <;>
        simp only [tmxr_putc_ln, hc, hb, hgt] <;>
        simp [h255] <;>
        split_ifs <;>
        rw [hB.1] <;>
        simp [hA1.1, Nat.mod_add_mod]
    · by_cases hiac : c % 256 = 255
      · have hxm : (TXBUF_CHAR (TXBUF_CHAR lp 255) c).xmte = lp.xmte := by
          rw [(txbuf_char_preserves _ _).1, (txbuf_char_preserves _ _).1]
        have htf : (TXBUF_CHAR (TXBUF_CHAR lp 255) c).txbfd = false := by
          rw [(txbuf_char_preserves _ _).2, (txbuf_char_preserves _ _).2, hb]
        simp only [tmxr_putc_ln, hc, hb, hgt]
        simp [hiac, htf]
        split_ifs with hcond
        · exact ⟨fun _ => Or.inl hcond, fun _ => rfl⟩
        · rw [hxm]
          simp [hcond]
      · have hxm : (TXBUF_CHAR lp c).xmte = lp.xmte := (txbuf_char_preserves _ _).1
        have htf : (TXBUF_CHAR lp c).txbfd = false := by
          rw [(txbuf_char_preserves _ _).2, hb]
        simp only [tmxr_putc_ln, hc, hb, hgt]
        simp [hiac, htf]
        split_ifs with hcond
        · exact ⟨fun _ => Or.inl hcond, fun _ => rfl⟩
        · rw [hxm]
          simp [hcond]

/-- C4 counterexample: a connected unbuffered 4-byte ring with exactly one
free slot (room for one non-IAC byte) still returns SCPE_STALL and counts
a drop for the plain byte 0x41, refuting the claim that stall occurs only
when there is no room for the byte (plus its IAC double). -/
theorem c4_stall_with_room_counterexample :
    TXBUF_AVAIL exAvail1 = 1 ∧ (65 : Nat) % 256 ≠ 255 ∧
    (tmxr_putc_ln exAvail1 65).2 = TStat.stall ∧
    (tmxr_putc_ln exAvail1 65).1.txdrp = exAvail1.txdrp + 1 := by
  decide

/-- C4 witness: the amended theorem applied to a ring with six free
slots. -/
theorem c4_putc_unbuffered_amended_witness :
    (exHalf.conn ≠ 0 ∧ exHalf.txbfd = false ∧ exHalf.txbpi < exHalf.txbsz ∧
     exHalf.txbpr < exHalf.txbsz) ∧
    ((tmxr_putc_ln exHalf 65).2 = TStat.stall ↔ TXBUF_AVAIL exHalf ≤ 1) :=
  ⟨⟨by decide, by decide, by decide, by decide⟩,
   (c4_putc_unbuffered_amended exHalf 65 (by decide) (by decide) (by decide)
     (by decide)).1⟩

/-- tmxr_send_buffered_data only moves the take pointer and adds the sent
byte counts to tx_count; every other statistic and pointer is untouched. -/
theorem tmxr_send_buffered_fields (o1 o2 : Option Nat) (lp : TMLN) :
    (tmxr_send_buffered_data o1 o2 lp).1.txdrp = lp.txdrp ∧
    (tmxr_send_buffered_data o1 o2 lp).1.rxcnt = lp.rxcnt ∧
    (tmxr_send_buffered_data o1 o2 lp).1.txbpi = lp.txbpi ∧
    (tmxr_send_buffered_data o1 o2 lp).1.txbfd = lp.txbfd ∧
    lp.txcnt ≤ (tmxr_send_buffered_data o1 o2 lp).1.txcnt := by
  unfold tmxr_send_buffered_data
  rcases o1 with _ | s1 <;> rcases o2 with _ | s2 <;>
    dsimp only <;>
    split_ifs <;>
    simp <;>
    omega

/-- C6 amended: after tmxr_reset_ln the log has been flushed and the
remaining buffered data sent (external effects), the socket is closed with
conn = NONE, the Telnet parse state and both rx indices are zero, and the
tx indices are zeroed exactly when the line is unbuffered (in buffered mode
the put index is preserved and the take pointer only advances by the final
flush).  The counters are NOT reset: rx_count and tx_drops are unchanged
and tx_count changes only by the bytes drained by the final flush; the
counters are cleared by the next unbuffered accept instead. -/
theorem c6_reset_ln_amended (o1 o2 : Option Nat) (lp : TMLN) :
    (tmxr_reset_ln o1 o2 lp).conn = 0 ∧
    (tmxr_reset_ln o1 o2 lp).tsta = 0 ∧
    (tmxr_reset_ln o1 o2 lp).rxb = [] ∧
    (tmxr_reset_ln o1 o2 lp).rxbpr = 0 ∧
    (tmxr_reset_ln o1 o2 lp).xmte = true ∧
    (tmxr_reset_ln o1 o2 lp).dstb = false ∧
    (tmxr_reset_ln o1 o2 lp).txdrp = lp.txdrp ∧
    (tmxr_reset_ln o1 o2 lp).rxcnt = lp.rxcnt ∧
    (lp.txbfd = false →
      (tmxr_reset_ln o1 o2 lp).txbpi = 0 ∧ (tmxr_reset_ln o1 o2 lp).txbpr = 0) ∧
    (lp.txbfd = true → (tmxr_reset_ln o1 o2 lp).txbpi = lp.txbpi) ∧
    (∃ k : Nat, (tmxr_reset_ln o1 o2 lp).txcnt = lp.txcnt + k) := by
  obtain ⟨hd, hr, hp, hf, hk⟩ := tmxr_send_buffered_fields o1 o2 lp
  unfold tmxr_reset_ln
  refine ⟨rfl, rfl, rfl, rfl, rfl, rfl, hd, hr, ?_, ?_, ?_⟩
  · intro hb
    constructor <;>
      show (if (tmxr_send_buffered_data o1 o2 lp).1.txbfd then _ else 0) = 0 <;>
      rw [hf, hb] <;>
      simp
  · intro hb
    show (if (tmxr_send_buffered_data o1 o2 lp).1.txbfd then
           (tmxr_send_buffered_data o1 o2 lp).1.txbpi else 0) = lp.txbpi
    rw [hf, hb, if_pos rfl, hp]
  · obtain ⟨n, hn⟩ := Int.le.dest hk
    exact ⟨n, hn.symm⟩

/-- C6 counterexample: a line with tx_drops = 5, rx_count = 3 and
tx_count = 9 keeps all three counters through tmxr_reset_ln, refuting the
claim that the counters are zero afterwards. -/
theorem c6_counters_survive_counterexample :
    (tmxr_reset_ln none none exDropLine).txdrp = 5 ∧
    (tmxr_reset_ln none none exDropLine).rxcnt = 3 ∧
    (tmxr_reset_ln none none exDropLine).txcnt = 9 ∧
    (5 : Nat) ≠ 0 := by
  decide

set_option maxHeartbeats 4000000 in
/-- Every pass of the filter loop body decreases the loop variant: it
either erases a byte, advances j, or leaves CRPAD for NORM. -/
theorem rx_step_measure_lt (s : RxState) (h : s.j < s.buf.length) :
    rxMeasure (tmxr_rx_step s) < rxMeasure s := by
  obtain ⟨dstb, tsta, buf, j⟩ := s
  simp only at h
  have hE : (buf.eraseIdx j).length = buf.length - 1 := by
    rw [List.length_eraseIdx]
    simp [h]
  have key : ((tmxr_rx_step ⟨dstb, tsta, buf, j⟩).buf.length = buf.length - 1 ∧
              (tmxr_rx_step ⟨dstb, tsta, buf, j⟩).j = j) ∨
             ((tmxr_rx_step ⟨dstb, tsta, buf, j⟩).j = j + 1 ∧
              (tmxr_rx_step ⟨dstb, tsta, buf, j⟩).buf.length = buf.length) ∨
             ((tmxr_rx_step ⟨dstb, tsta, buf, j⟩).j = j ∧
              (tmxr_rx_step ⟨dstb, tsta, buf, j⟩).buf.length = buf.length ∧
              tsta = TNS_CRPAD ∧ (tmxr_rx_step ⟨dstb, tsta, buf, j⟩).tsta ≠ TNS_CRPAD) := by
    unfold tmxr_rx_step
    split_ifs <;>
      simp_all [TNS_NORM, TNS_IAC, TNS_WILL, TNS_WONT, TNS_SKIP,
        TNS_CRPAD, TNS_DO, TNS_DONT] <;>
      (try (split_ifs <;> simp_all))
  unfold rxMeasure
  rcases key with ⟨h1, h2⟩ | ⟨h1, h2⟩ | ⟨h1, h2, h3, h4⟩ <;>
    rw [h1, h2] <;> split_ifs <;> simp_all [TNS_CRPAD] <;> omega

/-- Once the scan position reaches the end of the buffer the fuelled loop
is inert. -/
theorem rx_filter_go_stop (s : RxState) (h : ¬ s.j < s.buf.length) :
    ∀ fuel, tmxr_rx_filter_go fuel s = s := by
  intro fuel
  cases fuel <;> simp [tmxr_rx_filter_go, h]

/-- Any fuel at least the loop variant yields the same filter result. -/
theorem rx_filter_go_congr :
    ∀ f1 f2 (s : RxState), rxMeasure s ≤ f1 → rxMeasure s ≤ f2 →
      tmxr_rx_filter_go f1 s = tmxr_rx_filter_go f2 s := by
  intro f1
  induction f1 with
  | zero =>
    intro f2 s h1 h2
    have hj : ¬ s.j < s.buf.length := by
      unfold rxMeasure at h1
      intro hlt
      omega
    rw [rx_filter_go_stop s hj, rx_filter_go_stop s hj]
  | succ f ih =>
    intro f2 s h1 h2
    by_cases hj : s.j < s.buf.length
    · have hm2 : 2 ≤ rxMeasure s := by
        unfold rxMeasure
        have : s.j < s.buf.length := hj
        omega
      have hlt := rx_step_measure_lt s hj
      obtain ⟨f2p, rfl⟩ : ∃ m, f2 = m + 1 := ⟨f2 - 1, by omega⟩
      show tmxr_rx_filter_go (f + 1) s = tmxr_rx_filter_go (f2p + 1) s
      simp only [tmxr_rx_filter_go, if_pos hj]
      exact ih f2p (tmxr_rx_step s) (by omega) (by omega)
    · rw [rx_filter_go_stop s hj, rx_filter_go_stop s hj]

/-- The fuelled filter satisfies exactly the loop equation of the C code:
rxMeasure is enough fuel to reach the loop's exit condition. -/
theorem tmxr_rx_filter_eq (s : RxState) :
    tmxr_rx_filter s =
      if s.j < s.buf.length then tmxr_rx_filter (tmxr_rx_step s) else s := by
  by_cases hj : s.j < s.buf.length
  · rw [if_pos hj]
    unfold tmxr_rx_filter
    have hm2 : 2 ≤ rxMeasure s := by
      unfold rxMeasure
      have : s.j < s.buf.length := hj
      omega
    have hlt := rx_step_measure_lt s hj
    obtain ⟨m, hm⟩ : ∃ m, rxMeasure s = m + 1 := ⟨rxMeasure s - 1, by omega⟩
    rw [hm]
    simp only [tmxr_rx_filter_go, if_pos hj]
    exact rx_filter_go_congr m (rxMeasure (tmxr_rx_step s)) (tmxr_rx_step s)
      (by omega) (by omega)
  · rw [if_neg hj]
    unfold tmxr_rx_filter
    exact rx_filter_go_stop s hj _

/-- C1: the claim is right and the code is wrong.  With the connection
order list [1, 0] (produced e.g. by SET LINEORDER=1 on a two-line
multiplexer) and BOTH lines already connected (sockets 7 and 9), a newly
accepted socket 55 is NOT rejected: the search loop ends with i = 0 + 1
= 1 after the final j++/i++ of the loop header, the all-busy test
i >= lines (1 >= 2) fails, and tmxr_poll_conn returns 1 after storing
socket 55 into line 1, overwriting (and leaking) its live connection
instead of writing "All connections busy" and closing the socket.  (With
the default sequential scan the last examined index is lines - 1, so the
busy test works there.) -/
theorem c1_lnorder_overwrites_busy_line :
    (muxC1.ldsc.getD 1 default).conn = 9 ∧
    (muxC1.ldsc.getD 0 default).conn = 7 ∧
    (tmxr_poll_conn muxC1 (some (55, 1)) (strBytes ("hi\r\n")) 0 exOracleZero).2.ret = 1 ∧
    (tmxr_poll_conn muxC1 (some (55, 1)) (strBytes ("hi\r\n")) 0 exOracleZero).2.sockClosed = false ∧
    (tmxr_poll_conn muxC1 (some (55, 1)) (strBytes ("hi\r\n")) 0 exOracleZero).2.sockOut ≠ tmxrBusyMsg ∧
    (((tmxr_poll_conn muxC1 (some (55, 1)) (strBytes ("hi\r\n")) 0 exOracleZero).1.ldsc.getD 1 default).conn = 55) := by
  decide

/-- C2 counterexample: a freshly connected line (tsta = NORM, dstb = 0)
receiving 41 0D 0A 42 with no option negotiation keeps all four bytes: the
third tmxr_getc_ln call returns VALID | 0x0A, not VALID | 0x42, and a
fourth valid value follows — the LF after the CR is NOT removed, refuting
the claim of exactly three values A, CR, B. -/
theorem c2_crlf_not_collapsed_counterexample :
    (tmxr_poll_rx_line none none exFresh (some [65, 13, 10, 66])).rxb =
      [(65, false), (13, false), (10, false), (66, false)] ∧
    (let l0 := tmxr_poll_rx_line none none exFresh (some [65, 13, 10, 66])
     let r1 := tmxr_getc_ln l0
     let r2 := tmxr_getc_ln r1.1
     let r3 := tmxr_getc_ln r2.1
     let r4 := tmxr_getc_ln r3.1
     r1.2 = TMXR_VALID ||| 65 ∧ r2.2 = TMXR_VALID ||| 13 ∧
     r3.2 = TMXR_VALID ||| 10 ∧ r3.2 ≠ TMXR_VALID ||| 66 ∧
     r4.2 = TMXR_VALID ||| 66) := by
  decide

/-- C2 amended: with the post-accept defaults (dstb = 0, i.e. binary mode
assumed from the mantra) the bytes 41 0D 0A 42 pass through the filter
unchanged and tmxr_getc_ln returns FOUR valid values 41, 0D, 0A, 42; the
claimed three-value CR-LF collapse (41, 0D, 42) happens exactly when the
line has dstb = 1, i.e. after the peer negotiated WONT BIN. -/
theorem c2_crlf_collapse_amended :
    (let l0 := tmxr_poll_rx_line none none exFresh (some [65, 13, 10, 66])
     let r1 := tmxr_getc_ln l0
     let r2 := tmxr_getc_ln r1.1
     let r3 := tmxr_getc_ln r2.1
     let r4 := tmxr_getc_ln r3.1
     let r5 := tmxr_getc_ln r4.1
     r1.2 = TMXR_VALID ||| 65 ∧ r2.2 = TMXR_VALID ||| 13 ∧
     r3.2 = TMXR_VALID ||| 10 ∧ r4.2 = TMXR_VALID ||| 66 ∧ r5.2 = 0) ∧
    (let l0 := tmxr_poll_rx_line none none exFreshWont (some [65, 13, 10, 66])
     let r1 := tmxr_getc_ln l0
     let r2 := tmxr_getc_ln r1.1
     let r3 := tmxr_getc_ln r2.1
     let r4 := tmxr_getc_ln r3.1
     l0.rxb = [(65, false), (13, false), (66, false)] ∧
     r1.2 = TMXR_VALID ||| 65 ∧ r2.2 = TMXR_VALID ||| 13 ∧
     r3.2 = TMXR_VALID ||| 66 ∧ r4.2 = 0) := by
  decide

/-- C8: a received IAC BRK pair on a fresh connected line becomes exactly
one rx entry with byte 0 and the break flag set, in place, leaving the
surrounding bytes untouched: 41 FF F3 42 filters to three entries and
tmxr_getc_ln returns VALID|41, VALID|0|BREAK, VALID|42. -/
theorem c8_iac_brk_break_flag :
    (tmxr_poll_rx_line none none exFresh (some [65, 255, 243, 66])).rxb =
      [(65, false), (0, true), (66, false)] ∧
    ((tmxr_poll_rx_line none none exFresh (some [65, 255, 243, 66])).rxb.filter
      (fun e => e.2)).length = 1 ∧
    (let l0 := tmxr_poll_rx_line none none exFresh (some [65, 255, 243, 66])
     let r1 := tmxr_getc_ln l0
     let r2 := tmxr_getc_ln r1.1
     let r3 := tmxr_getc_ln r2.1
     let r4 := tmxr_getc_ln r3.1
     r1.2 = TMXR_VALID ||| 65 ∧
     r2.2 = TMXR_VALID ||| 0 ||| SCPE_BREAK ∧
     r3.2 = TMXR_VALID ||| 66 ∧ r4.2 = 0) := by
  decide
